import Mathlib

/-!
Shallow embedding of the `breaker` circuit-breaker package (Go).

The mutable `Circuit` struct becomes an immutable record; each Go method
becomes a function taking the configuration, the current clock instant
(`now : Int`, the injected `Clock`), and the circuit, and returning the
updated circuit together with the list of hook events it fires, in order.
Go errors are modelled by `Option GoError` (`none` is Go's `nil`), and
`errors.Is` by structural unwrapping of the `wrapped` constructor.
Go `int` and `time.Duration` are modelled by `Int` (the counters and
thresholds never approach machine bounds in any behaviour proved here).
-/

namespace Breaker

/-- `State` from breaker.go: Closed (Normal), Open (Tripped), HalfOpen (Probation). -/
inductive State where
  | Closed : State
  | Open : State
  | HalfOpen : State
deriving DecidableEq, Repr

/-- Go `error` values relevant to the breaker: the `ErrOpen` sentinel,
wrapped errors (as produced by `fmt.Errorf` with an error operand, unwrapped by
`errors.Is`), and arbitrary other errors indexed by a code. -/
inductive GoError where
  | errOpen : GoError
  | wrapped : GoError → GoError
  | other : Nat → GoError
deriving DecidableEq, Repr

/-- `errors.Is(err, target)`: repeatedly compare then unwrap. -/
def errorsIs : GoError → GoError → Bool
  | .wrapped e, t => (GoError.wrapped e == t) || errorsIs e t
  | .errOpen, t => GoError.errOpen == t
  | .other n, t => GoError.other n == t

/-- `IsOpen` from breaker.go: `errors.Is(err, ErrOpen)`; a Go `nil` error
(`none`) never matches. -/
def IsOpen : Option GoError → Bool
  | none => false
  | some e => errorsIs e .errOpen

/-- `config` from option.go.  `condition` classifies an outcome as failure. -/
structure Config where
  failureThreshold : Int
  successThreshold : Int
  openDuration : Int
  halfOpenRequests : Int
  condition : Option GoError → Bool

/-- `defaultCondition` from breaker.go: any non-nil error is a failure. -/
def defaultCondition (err : Option GoError) : Bool :=
  err.isSome

/-- The default configuration built by `New` (30s expressed in nanoseconds,
as Go's `time.Duration` is). -/
def cfgDefault : Config :=
  { failureThreshold := 5, successThreshold := 2, openDuration := 30000000000,
    halfOpenRequests := 1, condition := defaultCondition }

/-- The mutable fields of `Circuit` from breaker.go (the immutable `name` and
`cfg` are passed separately). -/
structure Circuit where
  state : State
  failures : Int
  successes : Int
  halfOpenCnt : Int
  openedAt : Int
deriving DecidableEq, Repr

/-- The circuit returned by `New`: Closed with zeroed counters
(`openedAt` is Go's zero `time.Time`, modelled as instant 0). -/
def New : Circuit :=
  { state := .Closed, failures := 0, successes := 0, halfOpenCnt := 0, openedAt := 0 }

/-- Hook invocations and the operation invocation, in the order the body of
`Do` / `Reset` / `State` performs them.  We record events unconditionally,
modelling a caller who configured every hook. -/
inductive Event where
  | stateChange : State → State → Event
  | call : State → Option GoError → Event
  | reject : Event
  | invoke : Event
deriving DecidableEq, Repr

/-- `Circuit.setState` from breaker.go: no-op on identity transition;
otherwise commit the new state, zero all counters, stamp `openedAt` when
entering Open, and fire the state-change hook with the committed transition. -/
def setState (now : Int) (c : Circuit) (s : State) : Circuit × List Event :=
  if c.state = s then (c, [])
  else
    ({ state := s, failures := 0, successes := 0, halfOpenCnt := 0,
       openedAt := if s = State.Open then now else c.openedAt },
     [Event.stateChange c.state s])

/-- `Circuit.currentState` from breaker.go: lazily commit Open → HalfOpen when
the open duration has elapsed (inclusive bound), then report the state.
`Circuit.State` is exactly this function run under the lock. -/
def currentState (cfg : Config) (now : Int) (c : Circuit) : State × Circuit × List Event :=
  if c.state = State.Open ∧ cfg.openDuration ≤ now - c.openedAt then
    let p := setState now c .HalfOpen
    (p.1.state, p.1, p.2)
  else
    (c.state, c, [])

/-- `Circuit.Reset` from breaker.go: `setState(Closed)` under the lock. -/
def Reset (now : Int) (c : Circuit) : Circuit × List Event :=
  setState now c .Closed

/-- `Circuit.allow` from breaker.go: admission decision.  Returns the state
captured for the per-call hook, the rejection error (if any), the updated
circuit and the events fired. -/
def allow (cfg : Config) (now : Int) (c : Circuit) :
    (State × Option GoError) × Circuit × List Event :=
  let q := currentState cfg now c
  match q.1 with
  | .Open => ((q.1, some .errOpen), q.2.1, q.2.2)
  | .HalfOpen =>
    if cfg.halfOpenRequests ≤ q.2.1.halfOpenCnt then
      ((q.1, some .errOpen), q.2.1, q.2.2)
    else
      ((q.1, none), { q.2.1 with halfOpenCnt := q.2.1.halfOpenCnt + 1 }, q.2.2)
  | .Closed => ((q.1, none), q.2.1, q.2.2)

/-- `Circuit.record` from breaker.go: classify the outcome with the configured
condition and apply the transition table. -/
def record (cfg : Config) (now : Int) (c : Circuit) (err : Option GoError) :
    Circuit × List Event :=
  let isFailure := cfg.condition err
  let q := currentState cfg now c
  match q.1 with
  | .Closed =>
    if isFailure then
      let c2 := { q.2.1 with failures := q.2.1.failures + 1 }
      if cfg.failureThreshold ≤ c2.failures then
        let p := setState now c2 .Open
        (p.1, q.2.2 ++ p.2)
      else
        (c2, q.2.2)
    else
      ({ q.2.1 with failures := 0 }, q.2.2)
  | .HalfOpen =>
    if isFailure then
      let p := setState now q.2.1 .Open
      (p.1, q.2.2 ++ p.2)
    else
      let c2 := { q.2.1 with successes := q.2.1.successes + 1 }
      if cfg.successThreshold ≤ c2.successes then
        let p := setState now c2 .Closed
        (p.1, q.2.2 ++ p.2)
      else
        (c2, q.2.2)
  | .Open => (q.2.1, q.2.2)

/-- The observable outcome of one `Circuit.Do` call: the returned error, the
circuit afterwards, the events fired in order, and whether the caller's
operation was invoked. -/
structure DoOut where
  err : Option GoError
  circuit : Circuit
  events : List Event
  invoked : Bool
deriving DecidableEq, Repr

/-- `Circuit.Do` from breaker.go: admission via `allow`; on rejection fire the
reject hook and return the rejection error without invoking the operation; on
admission invoke the operation (whose returned error is `fnErr`), record the
outcome, fire the per-call hook with the admission-time state, and return the
operation's error verbatim. -/
def Do (cfg : Config) (now : Int) (c : Circuit) (fnErr : Option GoError) : DoOut :=
  let a := allow cfg now c
  match a.1.2 with
  | some e => ⟨some e, a.2.1, a.2.2 ++ [Event.reject], false⟩
  | none =>
    let r := record cfg now a.2.1 fnErr
    ⟨fnErr, r.1, a.2.2 ++ [Event.invoke] ++ r.2 ++ [Event.call a.1.1 fnErr], true⟩

/-- `Run` from the generic wrapper: `var result T` (the zero value `zeroT`),
then `Do` with a closure that stores the operation's value `fnVal` and returns
its error `fnErr`; the stored slot is written exactly when the operation is
invoked. -/
def Run {T : Type} (zeroT : T) (cfg : Config) (now : Int) (c : Circuit)
    (fnVal : T) (fnErr : Option GoError) : T × DoOut :=
  let d := Do cfg now c fnErr
  (if d.invoked then fnVal else zeroT, d)

/-- A sequence of guarded calls: each element gives the instant of the call
and the error the operation would return if invoked.  Returns the list of
errors `Do` returned, the final circuit, and all events in order. -/
def doList (cfg : Config) (c : Circuit) :
    List (Int × Option GoError) → List (Option GoError) × Circuit × List Event
  | [] => ([], c, [])
  | p :: rest =>
    let d := Do cfg p.1 c p.2
    let r := doList cfg d.circuit rest
    (d.err :: r.1, r.2.1, d.events ++ r.2.2)

/-- The default configuration with `WithFailureThreshold(2)` applied. -/
def cfgFT2 : Config :=
  { cfgDefault with failureThreshold := 2 }

/-- The default configuration with `WithSuccessThreshold(1)` applied. -/
def cfgST1 : Config :=
  { cfgDefault with successThreshold := 1 }

/-- The default configuration with `WithHalfOpenRequests(0)` applied. -/
def cfgHOR0 : Config :=
  { cfgDefault with halfOpenRequests := 0 }

/-! ### Characterization lemmas: one `Do` step, by pre-state -/

theorem currentState_closed (cfg : Config) (now f s j w : Int) :
    currentState cfg now ⟨.Closed, f, s, j, w⟩ = (.Closed, ⟨.Closed, f, s, j, w⟩, []) := by
  simp [currentState]

theorem currentState_halfopen (cfg : Config) (now f s j w : Int) :
    currentState cfg now ⟨.HalfOpen, f, s, j, w⟩ = (.HalfOpen, ⟨.HalfOpen, f, s, j, w⟩, []) := by
  simp [currentState]

theorem currentState_open_lt (cfg : Config) (now f s j w : Int)
    (h : now - w < cfg.openDuration) :
    currentState cfg now ⟨.Open, f, s, j, w⟩ = (.Open, ⟨.Open, f, s, j, w⟩, []) := by
  simp [currentState, not_le.mpr h]

theorem currentState_open_ge (cfg : Config) (now f s j w : Int)
    (h : cfg.openDuration ≤ now - w) :
    currentState cfg now ⟨.Open, f, s, j, w⟩ =
      (.HalfOpen, ⟨.HalfOpen, 0, 0, 0, w⟩, [Event.stateChange .Open .HalfOpen]) := by
  simp [currentState, setState, h]

theorem Do_closed_fail (cfg : Config) (t f s j w : Int) (e : Option GoError)
    (he : cfg.condition e = true) :
    Do cfg t ⟨.Closed, f, s, j, w⟩ e =
      if cfg.failureThreshold ≤ f + 1 then
        ⟨e, ⟨.Open, 0, 0, 0, t⟩,
          [Event.invoke, Event.stateChange .Closed .Open, Event.call .Closed e], true⟩
      else
        ⟨e, ⟨.Closed, f + 1, s, j, w⟩, [Event.invoke, Event.call .Closed e], true⟩ := by
  by_cases h : cfg.failureThreshold ≤ f + 1 <;>
    simp [Do, allow, record, currentState, setState, he, h]

theorem Do_closed_succ (cfg : Config) (t f s j w : Int) (e : Option GoError)
    (he : cfg.condition e = false) :
    Do cfg t ⟨.Closed, f, s, j, w⟩ e =
      ⟨e, ⟨.Closed, 0, s, j, w⟩, [Event.invoke, Event.call .Closed e], true⟩ := by
  simp [Do, allow, record, currentState, setState, he]

theorem Do_halfopen_reject (cfg : Config) (t f s j w : Int) (e : Option GoError)
    (h : cfg.halfOpenRequests ≤ j) :
    Do cfg t ⟨.HalfOpen, f, s, j, w⟩ e =
      ⟨some .errOpen, ⟨.HalfOpen, f, s, j, w⟩, [Event.reject], false⟩ := by
  simp [Do, allow, currentState, h]

theorem Do_halfopen_fail (cfg : Config) (t f s j w : Int) (e : Option GoError)
    (hj : j < cfg.halfOpenRequests) (he : cfg.condition e = true) :
    Do cfg t ⟨.HalfOpen, f, s, j, w⟩ e =
      ⟨e, ⟨.Open, 0, 0, 0, t⟩,
        [Event.invoke, Event.stateChange .HalfOpen .Open, Event.call .HalfOpen e], true⟩ := by
  simp [Do, allow, record, currentState, setState, he, not_le.mpr hj]

theorem Do_halfopen_succ (cfg : Config) (t f s j w : Int) (e : Option GoError)
    (hj : j < cfg.halfOpenRequests) (he : cfg.condition e = false) :
    Do cfg t ⟨.HalfOpen, f, s, j, w⟩ e =
      if cfg.successThreshold ≤ s + 1 then
        ⟨e, ⟨.Closed, 0, 0, 0, w⟩,
          [Event.invoke, Event.stateChange .HalfOpen .Closed, Event.call .HalfOpen e], true⟩
      else
        ⟨e, ⟨.HalfOpen, f, s + 1, j + 1, w⟩,
          [Event.invoke, Event.call .HalfOpen e], true⟩ := by
  by_cases h : cfg.successThreshold ≤ s + 1 <;>
    simp [Do, allow, record, currentState, setState, he, not_le.mpr hj, h]

theorem Do_open_lt (cfg : Config) (t f s j w : Int) (e : Option GoError)
    (h : t - w < cfg.openDuration) :
    Do cfg t ⟨.Open, f, s, j, w⟩ e =
      ⟨some .errOpen, ⟨.Open, f, s, j, w⟩, [Event.reject], false⟩ := by
  simp [Do, allow, currentState, not_le.mpr h]

theorem doList_append (cfg : Config) (c : Circuit) (xs ys : List (Int × Option GoError)) :
    doList cfg c (xs ++ ys) =
      ((doList cfg c xs).1 ++ (doList cfg (doList cfg c xs).2.1 ys).1,
       (doList cfg (doList cfg c xs).2.1 ys).2.1,
       (doList cfg c xs).2.2 ++ (doList cfg (doList cfg c xs).2.1 ys).2.2) := by
  induction xs generalizing c with
  | nil => simp [doList]
  | cons p rest ih => simp [doList, ih]

/-! ### Structural lemmas about `currentState`, `allow` and `Do` -/

theorem currentState_no_invoke (cfg : Config) (now : Int) (c : Circuit) :
    Event.invoke ∉ (currentState cfg now c).2.2 := by
  rcases c with ⟨st, f, s, j, w⟩
  cases st
  · simp [currentState]
  · unfold currentState setState
    split_ifs <;> simp
  · simp [currentState]

theorem allow_events_eq (cfg : Config) (now : Int) (c : Circuit) :
    (allow cfg now c).2.2 = (currentState cfg now c).2.2 := by
  unfold allow
  cases h : (currentState cfg now c).1
  · simp [h]
  · simp [h]
  · simp only [h]
    split <;> simp

theorem allow_err_cases (cfg : Config) (now : Int) (c : Circuit) :
    (allow cfg now c).1.2 = none ∨ (allow cfg now c).1.2 = some GoError.errOpen := by
  unfold allow
  cases h : (currentState cfg now c).1
  · simp [h]
  · simp [h]
  · simp only [h]
    split <;> simp

theorem allow_gated (cfg : Config) (now : Int) (c : Circuit)
    (h : (currentState cfg now c).1 = State.Open ∨
         ((currentState cfg now c).1 = State.HalfOpen ∧
          cfg.halfOpenRequests ≤ (currentState cfg now c).2.1.halfOpenCnt)) :
    (allow cfg now c).1.2 = some GoError.errOpen := by
  unfold allow
  rcases h with h | ⟨h1, h2⟩
  · simp [h]
  · simp [h1, h2]

theorem Do_rejected (cfg : Config) (now : Int) (c : Circuit) (e : Option GoError)
    (h : (allow cfg now c).1.2 = some GoError.errOpen) :
    Do cfg now c e =
      ⟨some GoError.errOpen, (allow cfg now c).2.1,
       (allow cfg now c).2.2 ++ [Event.reject], false⟩ := by
  unfold Do
  simp [h]

theorem Do_admitted (cfg : Config) (now : Int) (c : Circuit) (e : Option GoError)
    (h : (allow cfg now c).1.2 = none) :
    Do cfg now c e =
      ⟨e, (record cfg now (allow cfg now c).2.1 e).1,
       (allow cfg now c).2.2 ++ [Event.invoke] ++ (record cfg now (allow cfg now c).2.1 e).2
         ++ [Event.call (allow cfg now c).1.1 e], true⟩ := by
  unfold Do
  simp [h]

theorem Do_not_invoked_err (cfg : Config) (now : Int) (c : Circuit) (e : Option GoError)
    (h : (Do cfg now c e).invoked = false) :
    (Do cfg now c e).err = some GoError.errOpen := by
  rcases allow_err_cases cfg now c with ha | ha
  · rw [Do_admitted cfg now c e ha] at h
    simp at h
  · rw [Do_rejected cfg now c e ha]

theorem Do_invoked_err (cfg : Config) (now : Int) (c : Circuit) (e : Option GoError)
    (h : (Do cfg now c e).invoked = true) :
    (Do cfg now c e).err = e := by
  rcases allow_err_cases cfg now c with ha | ha
  · rw [Do_admitted cfg now c e ha]
  · rw [Do_rejected cfg now c e ha] at h
    simp at h

theorem Do_not_invoked_no_invoke (cfg : Config) (now : Int) (c : Circuit) (e : Option GoError)
    (h : (Do cfg now c e).invoked = false) :
    Event.invoke ∉ (Do cfg now c e).events := by
  rcases allow_err_cases cfg now c with ha | ha
  · rw [Do_admitted cfg now c e ha] at h
    simp at h
  · rw [Do_rejected cfg now c e ha]
    have := currentState_no_invoke cfg now c
    simp [allow_events_eq cfg now c]
    exact fun hmem => this hmem

/-! ### Claim theorems -/

/-- C1 counterexample: three classified failures under the default
configuration leave the circuit Closed with `failures = 3`; calling `Reset`
on that circuit fires no hook (as the claim says) but also leaves
`failures = 3`, not zero — refuting "leaves the counters at zero regardless
of the failure count accumulated before the call". -/
theorem c1_counterexample :
    (doList cfgDefault New (List.replicate 3 ((0 : Int), some (GoError.other 0)))).2.1 =
      ⟨.Closed, 3, 0, 0, 0⟩ ∧
    Reset 0 ⟨.Closed, 3, 0, 0, 0⟩ = (⟨.Closed, 3, 0, 0, 0⟩, []) := by
  decide

/-- C1 (amended): `Reset` forces Normal and fires the hook exactly when the
prior state was not Normal, zeroing all counters in that case; when the state
is already Normal, `Reset` is a complete no-op — no hook, and the counters
keep whatever values they had (an accumulated `failures` count persists). -/
theorem c1_reset_behavior (now : Int) (c : Circuit) :
    (c.state = .Closed → Reset now c = (c, [])) ∧
    (c.state ≠ .Closed →
      Reset now c =
        (⟨.Closed, 0, 0, 0, c.openedAt⟩, [Event.stateChange c.state .Closed])) := by
  constructor <;> intro h <;> simp [Reset, setState, h]

/-- Witness for `c1_reset_behavior` at a Tripped circuit. -/
theorem c1_reset_behavior_witness :
    Reset 0 ⟨.Open, 1, 2, 3, 7⟩ = (⟨.Closed, 0, 0, 0, 7⟩, [Event.stateChange .Open .Closed]) :=
  (c1_reset_behavior 0 ⟨.Open, 1, 2, 3, 7⟩).2 (by decide)

/-- C2 counterexample: an admitted operation that fails while returning the
value 42 makes `Run` return 42 with the error — not the zero value (here 0)
the claim promises for every failure. -/
theorem c2_counterexample :
    (Run (0 : Int) cfgDefault 0 New 42 (some (GoError.other 1))).1 = 42 ∧
    (Run (0 : Int) cfgDefault 0 New 42 (some (GoError.other 1))).2.err =
      some (GoError.other 1) := by
  decide

/-- C2 (amended): `Run` returns the zero value together with an open-circuit
error when the call is rejected (operation not invoked); when the call is
admitted it returns the value stored by the operation — on success and on
failure alike — together with the operation's error.  The result is
zero-valued on failure only when the operation itself returned the zero
value. -/
theorem c2_run_behavior {T : Type} (zeroT fnVal : T) (cfg : Config) (now : Int)
    (c : Circuit) (fnErr : Option GoError) :
    ((Do cfg now c fnErr).invoked = false →
      Run zeroT cfg now c fnVal fnErr = (zeroT, Do cfg now c fnErr) ∧
      IsOpen (Run zeroT cfg now c fnVal fnErr).2.err = true) ∧
    ((Do cfg now c fnErr).invoked = true →
      Run zeroT cfg now c fnVal fnErr = (fnVal, Do cfg now c fnErr) ∧
      (Run zeroT cfg now c fnVal fnErr).2.err = fnErr) := by
  constructor <;> intro h
  · refine ⟨by simp [Run, h], ?_⟩
    simp [Run, Do_not_invoked_err cfg now c fnErr h, IsOpen, errorsIs]
  · exact ⟨by simp [Run, h], by simp [Run, Do_invoked_err cfg now c fnErr h]⟩

/-- Witness for `c2_run_behavior`: a rejected call (circuit Open) yields the
zero value, an admitted failing call yields the operation's error. -/
theorem c2_run_behavior_witness :
    Run (0 : Int) cfgDefault 0 ⟨.Open, 0, 0, 0, 0⟩ 42 none =
      ((0 : Int), Do cfgDefault 0 ⟨.Open, 0, 0, 0, 0⟩ none) ∧
    (Run (0 : Int) cfgDefault 0 New 42 (some (GoError.other 2))).2.err =
      some (GoError.other 2) :=
  ⟨((c2_run_behavior 0 42 cfgDefault 0 ⟨.Open, 0, 0, 0, 0⟩ none).1 (by decide)).1,
   ((c2_run_behavior 0 42 cfgDefault 0 New (some (GoError.other 2))).2 (by decide)).2⟩

/-- C4: while Tripped, every state query at elapsed time `< openDuration`
reports Open and commits nothing, and every call at such an instant is
rejected without invoking the operation; the first access at elapsed time
`≥ openDuration` (boundary inclusive) observes HalfOpen and commits the
transition (counters zeroed, hook fired).  The transition happens only
inside these access paths — there is no timer in the model, exactly as in
the code. -/
theorem c4_time_gate (cfg : Config) (now f s j w : Int) (e : Option GoError) :
    (now - w < cfg.openDuration →
      currentState cfg now ⟨.Open, f, s, j, w⟩ = (.Open, ⟨.Open, f, s, j, w⟩, []) ∧
      Do cfg now ⟨.Open, f, s, j, w⟩ e =
        ⟨some GoError.errOpen, ⟨.Open, f, s, j, w⟩, [Event.reject], false⟩) ∧
    (cfg.openDuration ≤ now - w →
      currentState cfg now ⟨.Open, f, s, j, w⟩ =
        (.HalfOpen, ⟨.HalfOpen, 0, 0, 0, w⟩, [Event.stateChange .Open .HalfOpen])) :=
  ⟨fun h => ⟨currentState_open_lt cfg now f s j w h, Do_open_lt cfg now f s j w e h⟩,
   fun h => currentState_open_ge cfg now f s j w h⟩

/-- Witness for `c4_time_gate` at the boundary of the default 30s duration. -/
theorem c4_time_gate_witness :
    currentState cfgDefault 29999999999 ⟨.Open, 0, 0, 0, 0⟩ =
      (.Open, ⟨.Open, 0, 0, 0, 0⟩, []) ∧
    currentState cfgDefault 30000000000 ⟨.Open, 0, 0, 0, 0⟩ =
      (.HalfOpen, ⟨.HalfOpen, 0, 0, 0, 0⟩, [Event.stateChange .Open .HalfOpen]) :=
  ⟨((c4_time_gate cfgDefault 29999999999 0 0 0 0 none).1 (by decide)).1,
   (c4_time_gate cfgDefault 30000000000 0 0 0 0 none).2 (by decide)⟩

/-- C8: `setState` fires exactly one state-change hook per actual transition,
carrying the pre-state and the post-state, and fires none on an identity
transition; on an actual transition the new state and the zeroed counters are
committed in the circuit the hook observes. -/
theorem c8_state_change_hook (now : Int) (c : Circuit) (s : State) :
    (c.state = s → setState now c s = (c, [])) ∧
    (c.state ≠ s →
      (setState now c s).2 = [Event.stateChange c.state s] ∧
      (setState now c s).1.state = s ∧
      (setState now c s).1.failures = 0 ∧
      (setState now c s).1.successes = 0 ∧
      (setState now c s).1.halfOpenCnt = 0 ∧
      (s = .Open → (setState now c s).1.openedAt = now)) := by
  constructor
  · intro h
    simp [setState, h]
  · intro h
    simp [setState, h]
    exact fun hs hns => absurd hs hns

/-- Witness for `c8_state_change_hook`: identity transition fires nothing,
an actual transition fires the single matching hook. -/
theorem c8_state_change_hook_witness :
    setState 5 ⟨.Closed, 3, 0, 0, 0⟩ .Closed = (⟨.Closed, 3, 0, 0, 0⟩, []) ∧
    (setState 5 ⟨.Closed, 0, 0, 0, 9⟩ .Open).2 = [Event.stateChange .Closed .Open] :=
  ⟨(c8_state_change_hook 5 ⟨.Closed, 3, 0, 0, 0⟩ .Closed).1 rfl,
   ((c8_state_change_hook 5 ⟨.Closed, 0, 0, 0, 9⟩ .Open).2 (by decide)).1⟩

/-- C9: a rejected call returns an error satisfying `IsOpen` and never
invokes the operation; an admitted call returns the operation's error
verbatim (never masked or wrapped); and `IsOpen` survives wrapping, so it is
not mere reference equality. -/
theorem c9_error_contract (cfg : Config) (now : Int) (c : Circuit) (fnErr : Option GoError) :
    ((Do cfg now c fnErr).invoked = false →
      IsOpen (Do cfg now c fnErr).err = true ∧
      Event.invoke ∉ (Do cfg now c fnErr).events) ∧
    (((Do cfg now c fnErr).invoked = true → (Do cfg now c fnErr).err = fnErr) ∧
     (∀ e : GoError, IsOpen (some e) = true → IsOpen (some (GoError.wrapped e)) = true)) := by
  refine ⟨fun h => ⟨?_, Do_not_invoked_no_invoke cfg now c fnErr h⟩,
          fun h => Do_invoked_err cfg now c fnErr h, fun e he => ?_⟩
  · rw [Do_not_invoked_err cfg now c fnErr h]
    decide
  · simp [IsOpen, errorsIs] at he ⊢
    simp [he]

/-- Witness for `c9_error_contract`: a rejected call's error satisfies
`IsOpen`; an admitted call propagates its own error. -/
theorem c9_error_contract_witness :
    IsOpen (Do cfgDefault 0 ⟨.Open, 0, 0, 0, 0⟩ none).err = true ∧
    (Do cfgDefault 0 New (some (GoError.other 3))).err = some (GoError.other 3) :=
  ⟨((c9_error_contract cfgDefault 0 ⟨.Open, 0, 0, 0, 0⟩ none).1 (by decide)).1,
   (c9_error_contract cfgDefault 0 New (some (GoError.other 3))).2.1 (by decide)⟩

theorem doList_cons (cfg : Config) (c : Circuit) (p : Int × Option GoError)
    (rest : List (Int × Option GoError)) :
    doList cfg c (p :: rest) =
      ((Do cfg p.1 c p.2).err :: (doList cfg (Do cfg p.1 c p.2).circuit rest).1,
       (doList cfg (Do cfg p.1 c p.2).circuit rest).2.1,
       (Do cfg p.1 c p.2).events ++ (doList cfg (Do cfg p.1 c p.2).circuit rest).2.2) := rfl

theorem doList_closed_fail_circuit (cfg : Config) :
    ∀ (calls : List (Int × Option GoError)), (∀ p ∈ calls, cfg.condition p.2 = true) →
    ∀ (f s j w : Int), f + calls.length < cfg.failureThreshold →
    (doList cfg ⟨.Closed, f, s, j, w⟩ calls).2.1 =
      ⟨.Closed, f + calls.length, s, j, w⟩ := by
  intro calls
  induction calls with
  | nil =>
    intro _ f s j w _
    simp [doList]
  | cons p rest ih =>
    intro hall f s j w hlt
    have hp : cfg.condition p.2 = true := hall p (List.mem_cons_self p rest)
    have hnt : ¬ cfg.failureThreshold ≤ f + 1 := by
      simp only [List.length_cons] at hlt
      push_cast at hlt
      omega
    have hD := Do_closed_fail cfg p.1 f s j w p.2 hp
    rw [if_neg hnt] at hD
    rw [doList_cons, hD]
    have hrest := ih (fun q hq => hall q (List.mem_cons_of_mem p hq)) (f + 1) s j w
      (by simp only [List.length_cons] at hlt; push_cast at hlt ⊢; omega)
    simp only [hrest, List.length_cons]
    have : f + 1 + (rest.length : Int) = f + ((rest.length : Int) + 1) := by ring
    rw [this]
    push_cast
    ring_nf

/-- C3: with `failureThreshold = N ≥ 1`, any run of fewer than N classified
failures from a fresh circuit leaves it Closed with `failures` equal to the
run length (so no earlier failure trips it); appending an N-th failure to a
run of N−1 trips the circuit to Open stamped with the instant of that call,
while appending one classified success instead leaves it Closed with
`failures = 0`. -/
theorem c3_failure_threshold (N : Nat) (hN : 1 ≤ N) (cfg : Config)
    (hth : cfg.failureThreshold = (N : Int))
    (calls : List (Int × Option GoError)) (hall : ∀ p ∈ calls, cfg.condition p.2 = true)
    (t : Int) (efail esucc : Option GoError)
    (hef : cfg.condition efail = true) (hes : cfg.condition esucc = false) :
    (calls.length < N →
      (doList cfg New calls).2.1 = ⟨.Closed, (calls.length : Int), 0, 0, 0⟩) ∧
    (calls.length = N - 1 →
      (doList cfg New (calls ++ [(t, efail)])).2.1 = ⟨.Open, 0, 0, 0, t⟩ ∧
      (doList cfg New (calls ++ [(t, esucc)])).2.1 = ⟨.Closed, 0, 0, 0, 0⟩) := by
  have base : ∀ hlen : calls.length < N,
      (doList cfg New calls).2.1 = ⟨.Closed, (calls.length : Int), 0, 0, 0⟩ := by
    intro hlen
    have := doList_closed_fail_circuit cfg calls hall 0 0 0 0
      (by rw [hth]; omega)
    simpa [New] using this
  refine ⟨base, fun hlen => ?_⟩
  have hlt : calls.length < N := by omega
  have hmid := base hlt
  constructor
  · rw [doList_append]
    have hD := Do_closed_fail cfg t ((calls.length : Int)) 0 0 0 efail hef
    rw [if_pos (by rw [hth]; omega)] at hD
    simp only [hmid, doList_cons, hD]
    simp [doList]
  · rw [doList_append]
    have hD := Do_closed_succ cfg t ((calls.length : Int)) 0 0 0 esucc hes
    simp only [hmid, doList_cons, hD]
    simp [doList]

/-- Witness for `c3_failure_threshold` with `failureThreshold = 2`: one
failure leaves the circuit Closed; a second failure trips it; a success after
one failure re-zeroes the count. -/
theorem c3_failure_threshold_witness :
    (doList cfgFT2 New ([((0 : Int), some (GoError.other 0))] ++ [((5 : Int), some (GoError.other 1))])).2.1 =
      ⟨.Open, 0, 0, 0, 5⟩ ∧
    (doList cfgFT2 New ([((0 : Int), some (GoError.other 0))] ++ [((5 : Int), (none : Option GoError))])).2.1 =
      ⟨.Closed, 0, 0, 0, 0⟩ :=
  (c3_failure_threshold 2 (by decide) cfgFT2 (by decide)
    [((0 : Int), some (GoError.other 0))] (by decide) 5 (some (GoError.other 1)) none
    (by decide) (by decide)).2 (by decide)

/-- C5: whenever the lazily recomputed state is Open, or HalfOpen with the
probation counter already at (or beyond) the configured limit, `Do` returns
the open-circuit error without invoking the operation. -/
theorem c5_gated_no_invoke (cfg : Config) (now : Int) (c : Circuit) (e : Option GoError)
    (h : (currentState cfg now c).1 = State.Open ∨
         ((currentState cfg now c).1 = State.HalfOpen ∧
          cfg.halfOpenRequests ≤ (currentState cfg now c).2.1.halfOpenCnt)) :
    (Do cfg now c e).invoked = false ∧
    Event.invoke ∉ (Do cfg now c e).events ∧
    (Do cfg now c e).err = some GoError.errOpen := by
  have ha := allow_gated cfg now c h
  have hinv : (Do cfg now c e).invoked = false := by
    rw [Do_rejected cfg now c e ha]
  exact ⟨hinv, Do_not_invoked_no_invoke cfg now c e hinv,
    Do_not_invoked_err cfg now c e hinv⟩

/-- Witness for `c5_gated_no_invoke`: an Open circuit and a HalfOpen circuit
at the default probe limit both reject without invoking. -/
theorem c5_gated_no_invoke_witness :
    (Do cfgDefault 0 ⟨.Open, 0, 0, 0, 0⟩ none).invoked = false ∧
    (Do cfgDefault 0 ⟨.HalfOpen, 0, 0, 1, 0⟩ none).invoked = false :=
  ⟨(c5_gated_no_invoke cfgDefault 0 ⟨.Open, 0, 0, 0, 0⟩ none (Or.inl (by decide))).1,
   (c5_gated_no_invoke cfgDefault 0 ⟨.HalfOpen, 0, 0, 1, 0⟩ none
      (Or.inr ⟨by decide, by decide⟩)).1⟩

theorem doList_halfopen_close_aux (cfg : Config) (M : Nat)
    (hst : cfg.successThreshold = (M : Int)) (hho : (M : Int) ≤ cfg.halfOpenRequests)
    (w : Int) :
    ∀ (calls : List (Int × Option GoError)), (∀ p ∈ calls, cfg.condition p.2 = false) →
    ∀ (jj : Nat), jj < M → jj + calls.length ≤ M →
    (doList cfg ⟨.HalfOpen, 0, (jj : Int), (jj : Int), w⟩ calls).2.1 =
      if jj + calls.length = M then ⟨.Closed, 0, 0, 0, w⟩
      else ⟨.HalfOpen, 0, ((jj + calls.length : Nat) : Int), ((jj + calls.length : Nat) : Int), w⟩ := by
  intro calls
  induction calls with
  | nil =>
    intro _ jj hjM _
    simp only [List.length_nil, Nat.add_zero]
    rw [if_neg (by omega)]
    simp [doList]
  | cons p rest ih =>
    intro hall jj hjM hle
    have hp : cfg.condition p.2 = false := hall p (List.mem_cons_self p rest)
    have hjK : (jj : Int) < cfg.halfOpenRequests := by
      have : (jj : Int) < (M : Int) := by exact_mod_cast hjM
      omega
    have hD := Do_halfopen_succ cfg p.1 0 (jj : Int) (jj : Int) w p.2 hjK hp
    simp only [List.length_cons] at hle ⊢
    by_cases hclose : jj + 1 = M
    · rw [if_pos (by rw [hst]; omega)] at hD
      have hrest : rest = [] := by
        have : rest.length = 0 := by omega
        exact List.length_eq_zero.mp this
      subst hrest
      rw [doList_cons, hD]
      simp only [doList, List.length_nil]
      rw [if_pos (by omega)]
    · rw [if_neg (by rw [hst]; omega)] at hD
      rw [doList_cons, hD]
      have ih2 := ih (fun q hq => hall q (List.mem_cons_of_mem p hq)) (jj + 1)
        (by omega) (by omega)
      have hcast : ((jj + 1 : Nat) : Int) = (jj : Int) + 1 := by push_cast; ring
      rw [hcast] at ih2
      rw [ih2]
      by_cases hM : jj + (rest.length + 1) = M
      · rw [if_pos (by omega), if_pos hM]
      · rw [if_neg (by omega), if_neg hM]
        have : jj + 1 + rest.length = jj + (rest.length + 1) := by omega
        rw [this]

/-- C7: with `successThreshold = M ≥ 1` and `halfOpenRequests ≥ M`, starting
in Probation with zeroed counters, fewer than M admitted classified successes
leave the circuit in Probation counting them, and exactly M close it to
Normal with all counters zeroed; a single admitted classified failure at any
point during Probation trips the circuit to Open, stamps `openedAt` with the
instant of the call, and zeroes all counters. -/
theorem c7_probation_close_trip (cfg : Config) (M : Nat) (hM : 1 ≤ M)
    (hst : cfg.successThreshold = (M : Int)) (hho : (M : Int) ≤ cfg.halfOpenRequests)
    (w : Int) (calls : List (Int × Option GoError))
    (hall : ∀ p ∈ calls, cfg.condition p.2 = false) :
    (calls.length < M →
      (doList cfg ⟨.HalfOpen, 0, 0, 0, w⟩ calls).2.1 =
        ⟨.HalfOpen, 0, (calls.length : Int), (calls.length : Int), w⟩) ∧
    (calls.length = M →
      (doList cfg ⟨.HalfOpen, 0, 0, 0, w⟩ calls).2.1 = ⟨.Closed, 0, 0, 0, w⟩) ∧
    (∀ (t f s j : Int) (e : Option GoError), cfg.condition e = true →
      j < cfg.halfOpenRequests →
      Do cfg t ⟨.HalfOpen, f, s, j, w⟩ e =
        ⟨e, ⟨.Open, 0, 0, 0, t⟩,
         [Event.invoke, Event.stateChange .HalfOpen .Open, Event.call .HalfOpen e], true⟩) := by
  have haux := doList_halfopen_close_aux cfg M hst hho w calls hall 0 (by omega)
  refine ⟨fun hlt => ?_, fun heq => ?_, fun t f s j e he hj => Do_halfopen_fail cfg t f s j w e hj he⟩
  · have h0 := haux (by omega)
    rw [if_neg (by omega)] at h0
    simpa using h0
  · have h0 := haux (by omega)
    rw [if_pos (by omega)] at h0
    simpa using h0

/-- Witness for `c7_probation_close_trip` with `successThreshold = 1`: one
admitted success closes the circuit from Probation. -/
theorem c7_probation_close_trip_witness :
    (doList cfgST1 ⟨.HalfOpen, 0, 0, 0, 0⟩ [((0 : Int), (none : Option GoError))]).2.1 =
      ⟨.Closed, 0, 0, 0, 0⟩ :=
  (c7_probation_close_trip cfgST1 1 (by decide) (by decide) (by decide) 0
    [((0 : Int), (none : Option GoError))] (by decide)).2.1 (by decide)

theorem doList_halfopen_window_aux (cfg : Config) (K : Nat)
    (hK : cfg.halfOpenRequests = (K : Int)) (hKM : (K : Int) < cfg.successThreshold)
    (w : Int) :
    ∀ (calls : List (Int × Option GoError)), (∀ p ∈ calls, cfg.condition p.2 = false) →
    ∀ (jj : Nat), jj ≤ K → K ≤ jj + calls.length →
    (doList cfg ⟨.HalfOpen, 0, (jj : Int), (jj : Int), w⟩ calls).2.1 =
        ⟨.HalfOpen, 0, (K : Int), (K : Int), w⟩ ∧
    (doList cfg ⟨.HalfOpen, 0, (jj : Int), (jj : Int), w⟩ calls).2.2.count Event.invoke = K - jj ∧
    (doList cfg ⟨.HalfOpen, 0, (jj : Int), (jj : Int), w⟩ calls).2.2.count Event.reject =
      calls.length - (K - jj) ∧
    (doList cfg ⟨.HalfOpen, 0, (jj : Int), (jj : Int), w⟩ calls).1.drop (K - jj) =
      List.replicate (calls.length - (K - jj)) (some GoError.errOpen) := by
  intro calls
  induction calls with
  | nil =>
    intro _ jj hjle hge
    simp only [List.length_nil, Nat.add_zero] at hge
    have hjj : jj = K := by omega
    subst hjj
    simp [doList]
  | cons p rest ih =>
    intro hall jj hjle hge
    have hp : cfg.condition p.2 = false := hall p (List.mem_cons_self p rest)
    simp only [List.length_cons] at hge ⊢
    rcases Nat.lt_or_ge jj K with hlt | hgejj
    · have hjK : (jj : Int) < cfg.halfOpenRequests := by
        rw [hK]; exact_mod_cast hlt
      have hD := Do_halfopen_succ cfg p.1 0 (jj : Int) (jj : Int) w p.2 hjK hp
      rw [if_neg (by
        have h1 : ((jj : Int) + 1) ≤ (K : Int) := by exact_mod_cast hlt
        omega)] at hD
      rw [doList_cons, hD]
      have ih2 := ih (fun q hq => hall q (List.mem_cons_of_mem p hq)) (jj + 1)
        (by omega) (by omega)
      have hcast : ((jj + 1 : Nat) : Int) = (jj : Int) + 1 := by push_cast; ring
      rw [hcast] at ih2
      refine ⟨ih2.1, ?_, ?_, ?_⟩
      · simp only [List.count_append, List.count_cons, List.count_nil, ih2.2.1]
        simp
        omega
      · simp only [List.count_append, List.count_cons, List.count_nil, ih2.2.2.1]
        simp
        omega
      · have hidx : K - jj = (K - (jj + 1)) + 1 := by omega
        rw [hidx, List.drop_succ_cons, ih2.2.2.2]
        have : rest.length + 1 - ((K - (jj + 1)) + 1) = rest.length - (K - (jj + 1)) := by omega
        rw [this]
    · have hjj : jj = K := by omega
      subst hjj
      have hD := Do_halfopen_reject cfg p.1 0 (jj : Int) (jj : Int) w p.2 (by rw [hK])
      rw [doList_cons, hD]
      have ih2 := ih (fun q hq => hall q (List.mem_cons_of_mem p hq)) jj
        (le_refl jj) (by omega)
      refine ⟨ih2.1, ?_, ?_, ?_⟩
      · simp only [List.count_append, List.count_cons, List.count_nil, ih2.2.1]
        simp
      · simp only [List.count_append, List.count_cons, List.count_nil, ih2.2.2.1]
        simp
        omega
      · simp only [Nat.sub_self, List.drop_zero] at ih2 ⊢
        rw [ih2.2.2.2]
        simp [List.replicate_succ]

/-- C6: with `halfOpenRequests = K < successThreshold`, during one Probation
window a run of at least K classified-success calls has exactly K operations
invoked; every call after the K-th is rejected (returning the open-circuit
sentinel) without invoking the operation, and the final `successes` count
equals K — the excess rejections never touch it. -/
theorem c6_probation_window (cfg : Config) (K : Nat)
    (hK : cfg.halfOpenRequests = (K : Int)) (hKM : (K : Int) < cfg.successThreshold)
    (w : Int) (calls : List (Int × Option GoError))
    (hall : ∀ p ∈ calls, cfg.condition p.2 = false) (hn : K ≤ calls.length) :
    (doList cfg ⟨.HalfOpen, 0, 0, 0, w⟩ calls).2.2.count Event.invoke = K ∧
    (doList cfg ⟨.HalfOpen, 0, 0, 0, w⟩ calls).2.2.count Event.reject = calls.length - K ∧
    (doList cfg ⟨.HalfOpen, 0, 0, 0, w⟩ calls).1.drop K =
      List.replicate (calls.length - K) (some GoError.errOpen) ∧
    (doList cfg ⟨.HalfOpen, 0, 0, 0, w⟩ calls).2.1 = ⟨.HalfOpen, 0, (K : Int), (K : Int), w⟩ := by
  have haux := doList_halfopen_window_aux cfg K hK hKM w calls hall 0 (by omega) (by omega)
  simp only [Nat.cast_zero, Nat.sub_zero] at haux
  exact ⟨haux.2.1, haux.2.2.1, haux.2.2.2, haux.1⟩

/-- Witness for `c6_probation_window` under the default configuration
(`halfOpenRequests = 1 < successThreshold = 2`): of two probe calls one is
admitted, the second is rejected with the sentinel and `successes` stays 1. -/
theorem c6_probation_window_witness :
    (doList cfgDefault ⟨.HalfOpen, 0, 0, 0, 0⟩
        [((0 : Int), (none : Option GoError)), ((1 : Int), (none : Option GoError))]).2.2.count
      Event.invoke = 1 ∧
    (doList cfgDefault ⟨.HalfOpen, 0, 0, 0, 0⟩
        [((0 : Int), (none : Option GoError)), ((1 : Int), (none : Option GoError))]).2.2.count
      Event.reject = 1 ∧
    (doList cfgDefault ⟨.HalfOpen, 0, 0, 0, 0⟩
        [((0 : Int), (none : Option GoError)), ((1 : Int), (none : Option GoError))]).1.drop 1 =
      [some GoError.errOpen] ∧
    (doList cfgDefault ⟨.HalfOpen, 0, 0, 0, 0⟩
        [((0 : Int), (none : Option GoError)), ((1 : Int), (none : Option GoError))]).2.1 =
      ⟨.HalfOpen, 0, 1, 1, 0⟩ :=
  c6_probation_window cfgDefault 1 (by decide) (by decide) 0
    [((0 : Int), (none : Option GoError)), ((1 : Int), (none : Option GoError))]
    (by decide) (by decide)

/-- C10: with `halfOpenRequests ≤ 0`, a circuit in Probation (with its
non-negative probe counter) rejects every guarded call with the open-circuit
sentinel, never invokes any operation, and is left completely unchanged by
any sequence of calls — so no sequence of guarded calls reaches Normal;
manual `Reset` does close it. -/
theorem c10_zero_probes (cfg : Config) (hK : cfg.halfOpenRequests ≤ 0)
    (f s j w now : Int) (hj : 0 ≤ j) (calls : List (Int × Option GoError)) :
    doList cfg ⟨.HalfOpen, f, s, j, w⟩ calls =
      (List.replicate calls.length (some GoError.errOpen), ⟨.HalfOpen, f, s, j, w⟩,
       List.replicate calls.length Event.reject) ∧
    Reset now ⟨.HalfOpen, f, s, j, w⟩ =
      (⟨.Closed, 0, 0, 0, w⟩, [Event.stateChange .HalfOpen .Closed]) := by
  constructor
  · induction calls with
    | nil => simp [doList]
    | cons p rest ih =>
      rw [doList_cons, Do_halfopen_reject cfg p.1 f s j w p.2 (le_trans hK hj)]
      simp [ih, List.replicate_succ]
  · simp [Reset, setState]

/-- Witness for `c10_zero_probes` with `WithHalfOpenRequests(0)`. -/
theorem c10_zero_probes_witness :
    doList cfgHOR0 ⟨.HalfOpen, 1, 2, 0, 3⟩ [((5 : Int), (none : Option GoError))] =
      ([some GoError.errOpen], ⟨.HalfOpen, 1, 2, 0, 3⟩, [Event.reject]) ∧
    Reset 9 ⟨.HalfOpen, 1, 2, 0, 3⟩ =
      (⟨.Closed, 0, 0, 0, 3⟩, [Event.stateChange .HalfOpen .Closed]) :=
  c10_zero_probes cfgHOR0 (by decide) 1 2 0 3 9 (by decide)
    [((5 : Int), (none : Option GoError))]

end Breaker
